import Mathlib

/-!
Verification development for the HTTP interception scripting SDK contract
(`caido:utils` module and global declaration set).

The repository ships TypeScript declaration files only; the behavioural
semantics live in the host application.  Following the specification, the
operations are therefore modelled here as executable Lean definitions, each
marked `Modelled from the spec:` and kept faithful to the specification's
words; the declaration surface itself (names and signatures) is embedded
verbatim from the two source files.
-/

namespace Caido

/-- Modelled from the spec: `Bytes` is "any of: a UTF-8-ish textual string, a
sequence of byte values (0–255), or a fixed binary buffer".  The repository
declares only the union type `string | Array<number> | Uint8Array`; the three
input forms are modelled as a sum. -/
inductive Bytes where
  | str (s : String)
  | arr (l : List Nat)
  | buf (l : List Nat)

/-- UTF-8 encoding of a single Unicode codepoint, as a list of byte values. -/
def utf8EncodeCodepoint (n : Nat) : List Nat :=
  if n < 0x80 then [n]
  else if n < 0x800 then [0xC0 + n / 64, 0x80 + n % 64]
  else if n < 0x10000 then [0xE0 + n / 4096, 0x80 + n / 64 % 64, 0x80 + n % 64]
  else [0xF0 + n / 262144, 0x80 + n / 4096 % 64, 0x80 + n / 64 % 64, 0x80 + n % 64]

/-- UTF-8 byte encoding of a string. -/
def utf8Encode (s : String) : List Nat :=
  s.data.flatMap (fun c => utf8EncodeCodepoint c.toNat)

/-- Modelled from the spec §4.1: lossy UTF-8 decoding into a codepoint list;
"any byte sequence that does not form valid text at the decode boundary is
replaced by the Unicode replacement character (U+FFFD) at that position —
decoding must never fail".  A well-formed UTF-8 sequence (overlong forms,
surrogates and out-of-range values rejected) decodes to its codepoint; at an
invalid position one byte is consumed and 0xFFFD is emitted. -/
abbrev isAscii (b : Nat) : Prop := b < 0x80

/-- Lead byte of a two-byte UTF-8 sequence (0xC0/0xC1 excluded: overlong). -/
abbrev isLead2 (b : Nat) : Prop := 0xC2 ≤ b ∧ b ≤ 0xDF

abbrev isLead3 (b : Nat) : Prop := 0xE0 ≤ b ∧ b ≤ 0xEF

/-- Lead byte of a four-byte UTF-8 sequence (0xF5.. excluded: above U+10FFFF). -/
abbrev isLead4 (b : Nat) : Prop := 0xF0 ≤ b ∧ b ≤ 0xF4

/-- Continuation byte. -/
abbrev isCont (b : Nat) : Prop := 0x80 ≤ b ∧ b ≤ 0xBF

/-- First continuation byte constraint for a three-byte sequence:
rejects overlong forms (lead 0xE0) and surrogates (lead 0xED). -/
abbrev cont3ok (b0 b1 : Nat) : Prop :=
  (if b0 = 0xE0 then 0xA0 else 0x80) ≤ b1 ∧ b1 ≤ (if b0 = 0xED then 0x9F else 0xBF)

/-- First continuation byte constraint for a four-byte sequence:
rejects overlong forms (lead 0xF0) and values above U+10FFFF (lead 0xF4). -/
abbrev cont4ok (b0 b1 : Nat) : Prop :=
  (if b0 = 0xF0 then 0x90 else 0x80) ≤ b1 ∧ b1 ≤ (if b0 = 0xF4 then 0x8F else 0xBF)

/-- Codepoint of a two-byte UTF-8 sequence. -/
def cp2 (b0 b1 : Nat) : Nat := (b0 - 0xC0) * 64 + (b1 - 0x80)

/-- Codepoint of a three-byte UTF-8 sequence. -/
def cp3 (b0 b1 b2 : Nat) : Nat := (b0 - 0xE0) * 4096 + (b1 - 0x80) * 64 + (b2 - 0x80)

/-- Codepoint of a four-byte UTF-8 sequence. -/
def cp4 (b0 b1 b2 b3 : Nat) : Nat :=
  (b0 - 0xF0) * 262144 + (b1 - 0x80) * 4096 + (b2 - 0x80) * 64 + (b3 - 0x80)

/-- Worker for `utf8DecodeReplace`: decodes the byte list whose head is `b0`
and whose remaining bytes are the second argument.  A well-formed sequence
yields its codepoint; otherwise one byte (the head) is consumed and 0xFFFD is
emitted, decoding resuming at the next byte. -/
def utf8DecodeGo : Nat → List Nat → List Nat
  | b0, [] =>
    if isAscii b0 then [b0] else [0xFFFD]
  | b0, [b1] =>
    if isAscii b0 then b0 :: utf8DecodeGo b1 []
    else if isLead2 b0 ∧ isCont b1 then [cp2 b0 b1]
    else 0xFFFD :: utf8DecodeGo b1 []
  | b0, [b1, b2] =>
    if isAscii b0 then b0 :: utf8DecodeGo b1 [b2]
    else if isLead2 b0 ∧ isCont b1 then cp2 b0 b1 :: utf8DecodeGo b2 []
    else if isLead3 b0 ∧ cont3ok b0 b1 ∧ isCont b2 then [cp3 b0 b1 b2]
    else 0xFFFD :: utf8DecodeGo b1 [b2]
  | b0, [b1, b2, b3] =>
    if isAscii b0 then b0 :: utf8DecodeGo b1 [b2, b3]
    else if isLead2 b0 ∧ isCont b1 then cp2 b0 b1 :: utf8DecodeGo b2 [b3]
    else if isLead3 b0 ∧ cont3ok b0 b1 ∧ isCont b2 then cp3 b0 b1 b2 :: utf8DecodeGo b3 []
    else if isLead4 b0 ∧ cont4ok b0 b1 ∧ isCont b2 ∧ isCont b3 then [cp4 b0 b1 b2 b3]
    else 0xFFFD :: utf8DecodeGo b1 [b2, b3]
  | b0, b1 :: b2 :: b3 :: b4 :: r =>
    if isAscii b0 then b0 :: utf8DecodeGo b1 (b2 :: b3 :: b4 :: r)
    else if isLead2 b0 ∧ isCont b1 then cp2 b0 b1 :: utf8DecodeGo b2 (b3 :: b4 :: r)
    else if isLead3 b0 ∧ cont3ok b0 b1 ∧ isCont b2 then cp3 b0 b1 b2 :: utf8DecodeGo b3 (b4 :: r)
    else if isLead4 b0 ∧ cont4ok b0 b1 ∧ isCont b2 ∧ isCont b3 then
      cp4 b0 b1 b2 b3 :: utf8DecodeGo b4 r
    else 0xFFFD :: utf8DecodeGo b1 (b2 :: b3 :: b4 :: r)

/-- Modelled from the spec §4.1 (see `utf8DecodeGo`): full lossy decode of a
byte list into a codepoint list. -/
def utf8DecodeReplace : List Nat → List Nat
  | [] => []
  | b :: r => utf8DecodeGo b r

/-- Modelled from the spec §4.2/§3: `Bytes` normalization, "a single
normalization entry point invoked at every boundary that accepts content,
producing one canonical internal byte representation immediately".  The string
form contributes its UTF-8 bytes; the numeric forms are byte values (taken mod
256, as a `Uint8Array` would store them). -/
def Bytes.normalize : Bytes → List Nat
  | .str s => utf8Encode s
  | .arr l => l.map (fun x => x % 256)
  | .buf l => l.map (fun x => x % 256)

/-- Modelled from the spec §3/§4.1: `Body` is an "immutable wrapper around a
byte sequence". -/
structure Body where
  bytes : List Nat
deriving DecidableEq, Repr

/-- Modelled from the spec §4.1: `construct(data: Bytes)` "normalizes any of
the three byte representations into one canonical internal byte buffer; never
throws". -/
def Body.construct (v : Bytes) : Body := ⟨v.normalize⟩

/-- Modelled from the spec §4.1: `toRaw()` "returns an exact byte view". -/
def Body.toRaw (b : Body) : List Nat := b.bytes

/-- Modelled from the spec §4.1: `toText()` is a "total function over bytes →
string; undecodable byte runs become U+FFFD". -/
def Body.toText (b : Body) : String :=
  String.mk ((utf8DecodeReplace b.bytes).map Char.ofNat)

example : utf8DecodeReplace (utf8Encode "héllo✓") = (String.data "héllo✓").map Char.toNat := by decide
example : utf8DecodeReplace [0x41, 0xFF, 0x42] = [0x41, 0xFFFD, 0x42] := by decide
example : utf8DecodeReplace [0xC0, 0xAF] = [0xFFFD, 0xFFFD] := by decide
example : utf8DecodeReplace [0xED, 0xA0, 0x80] = [0xFFFD, 0xFFFD, 0xFFFD] := by decide
example : Body.toText (Body.construct (Bytes.arr [0x68, 0x69])) = "hi" := by decide

/-- A valid Unicode scalar value (no surrogates, below 0x110000); this is
exactly `Nat.isValidChar`, the validity carried by Lean's `Char`. -/
abbrev ValidCp (n : Nat) : Prop := Nat.isValidChar n

/-- A byte list that begins with the UTF-8 encoding of some valid codepoint. -/
def ValidStart (bs : List Nat) : Prop :=
  ∃ cp r, ValidCp cp ∧ bs = utf8EncodeCodepoint cp ++ r

/-- Declarative characterisation of lossy UTF-8 decoding: the byte list is
consumed left to right; a position holding a well-formed encoded codepoint
contributes that codepoint, and a position at which no valid encoding starts
contributes the replacement character 0xFFFD (one byte consumed). -/
inductive LossyDecode : List Nat → List Nat → Prop where
  | nil : LossyDecode [] []
  | valid (cp : Nat) (r out : List Nat) :
      ValidCp cp → LossyDecode r out →
      LossyDecode (utf8EncodeCodepoint cp ++ r) (cp :: out)
  | replace (b : Nat) (r out : List Nat) :
      ¬ ValidStart (b :: r) → LossyDecode r out →
      LossyDecode (b :: r) (0xFFFD :: out)

/-- Modelled from the spec §7: the error kind raised by `Body.toJson` — the
`SyntaxError` kind, "raised only by `Body.toJson()` / equivalent, when text is
not valid JSON". -/
inductive JsonErr where
  | synErr (msg : String)

/-- Modelled from the spec §4.1: the "full JSON value space (null, bool,
number, string, array, map)".  A number is kept as its validated numeral
lexeme. -/
inductive Json where
  | null
  | bool (b : Bool)
  | num (lex : String)
  | str (s : String)
  | arr (elems : List Json)
  | obj (fields : List (String × Json))

/-- JSON insignificant whitespace skipping. -/
def jsonWs (cs : List Char) : List Char :=
  cs.dropWhile (fun c => c == ' ' || c == '\n' || c == '\t' || c == '\r')

/-- Value of one hexadecimal digit, if any; computed from the code point
(digits 48–57, lowercase letters 97–102, uppercase letters 65–70). -/
def hexVal (c : Char) : Option Nat :=
  let n := c.toNat
  if 48 ≤ n ∧ n ≤ 57 then some (n - 48)
  else if 97 ≤ n ∧ n ≤ 102 then some (n - 87)
  else if 65 ≤ n ∧ n ≤ 70 then some (n - 55)
  else none

/-- Code point denoted by a single-character JSON string escape. -/
def escCode (c : Char) : Option Nat :=
  if c == '"' then some 34
  else if c == '\\' then some 92
  else if c == '/' then some 47
  else if c == 'b' then some 8
  else if c == 'f' then some 12
  else if c == 'n' then some 10
  else if c == 'r' then some 13
  else if c == 't' then some 9
  else none

/-- Strict JSON string-body scanner: consumes characters up to the closing
quote, resolving escapes; fails on control characters, bad escapes or a
missing closing quote. -/
def jsonStrChars : Nat → List Char → Option (List Char × List Char)
  | 0, _ => none
  | _ + 1, [] => none
  | fuel + 1, c :: cs =>
    if c == '"' then some ([], cs)
    else if c == '\\' then
      match cs with
      | 'u' :: h1 :: h2 :: h3 :: h4 :: cs1 =>
        match hexVal h1, hexVal h2, hexVal h3, hexVal h4 with
        | some v1, some v2, some v3, some v4 =>
          (jsonStrChars fuel cs1).map
            (fun p => (Char.ofNat (((v1 * 16 + v2) * 16 + v3) * 16 + v4) :: p.1, p.2))
        | _, _, _, _ => none
      | e :: cs1 =>
        match escCode e with
        | some n => (jsonStrChars fuel cs1).map (fun p => (Char.ofNat n :: p.1, p.2))
        | none => none
      | [] => none
    else if c.toNat < 0x20 then none
    else (jsonStrChars fuel cs).map (fun p => (c :: p.1, p.2))

/-- Strict JSON numeral scanner; returns the numeral lexeme and the rest. -/
def jsonNum (cs : List Char) : Option (String × List Char) :=
  let (sign, cs1) := match cs with
    | '-' :: r => (['-'], r)
    | _ => (([] : List Char), cs)
  let intDigits := cs1.takeWhile Char.isDigit
  let cs2 := cs1.dropWhile Char.isDigit
  if intDigits.isEmpty then none
  else if intDigits.length > 1 ∧ intDigits.head? = some '0' then none
  else
    let (fracDigits, cs3) := match cs2 with
      | '.' :: r => (r.takeWhile Char.isDigit, r.dropWhile Char.isDigit)
      | _ => (([] : List Char), cs2)
    if (match cs2 with | '.' :: _ => fracDigits.isEmpty | _ => False) then none
    else
      let fracLex : List Char := match cs2 with
        | '.' :: _ => '.' :: fracDigits
        | _ => []
      match cs3 with
      | 'e' :: r | 'E' :: r =>
        let (expSign, r1) := match r with
          | '+' :: r1 => (['+'], r1)
          | '-' :: r1 => (['-'], r1)
          | _ => (([] : List Char), r)
        let expDigits := r1.takeWhile Char.isDigit
        let r2 := r1.dropWhile Char.isDigit
        if expDigits.isEmpty then none
        else some (String.mk (sign ++ intDigits ++ fracLex ++ 'e' :: expSign ++ expDigits), r2)
      | _ => some (String.mk (sign ++ intDigits ++ fracLex), cs3)

mutual

/-- Modelled from the spec §4.1: strict recursive-descent JSON value parser
(fuel-indexed for termination; the entry point supplies ample fuel). -/
def jsonVal : Nat → List Char → Option (Json × List Char)
  | 0, _ => none
  | fuel + 1, cs0 =>
    match jsonWs cs0 with
    | [] => none
    | c :: cs =>
      if c == 'n' then
        match cs with
        | 'u' :: 'l' :: 'l' :: r => some (.null, r)
        | _ => none
      else if c == 't' then
        match cs with
        | 'r' :: 'u' :: 'e' :: r => some (.bool true, r)
        | _ => none
      else if c == 'f' then
        match cs with
        | 'a' :: 'l' :: 's' :: 'e' :: r => some (.bool false, r)
        | _ => none
      else if c == '"' then
        (jsonStrChars (cs.length + 1) cs).map (fun p => (.str (String.mk p.1), p.2))
      else if c == '[' then
        match jsonWs cs with
        | ']' :: r => some (.arr [], r)
        | _ => (jsonElems fuel cs).map (fun p => (.arr p.1, p.2))
      else if c == '{' then
        match jsonWs cs with
        | '}' :: r => some (.obj [], r)
        | _ => (jsonMembers fuel cs).map (fun p => (.obj p.1, p.2))
      else
        (jsonNum (c :: cs)).map (fun p => (.num p.1, p.2))

/-- Comma-separated JSON array elements followed by a closing bracket. -/
def jsonElems : Nat → List Char → Option (List Json × List Char)
  | 0, _ => none
  | fuel + 1, cs => do
    let (j, r) ← jsonVal fuel cs
    match jsonWs r with
    | ',' :: r1 => (jsonElems fuel r1).map (fun p => (j :: p.1, p.2))
    | ']' :: r1 => some ([j], r1)
    | _ => none

/-- Comma-separated JSON object members followed by a closing brace. -/
def jsonMembers : Nat → List Char → Option (List (String × Json) × List Char)
  | 0, _ => none
  | fuel + 1, cs =>
    match jsonWs cs with
    | '"' :: r => do
      let (key, r1) ← jsonStrChars (r.length + 1) r
      match jsonWs r1 with
      | ':' :: r2 => do
        let (j, r3) ← jsonVal fuel r2
        match jsonWs r3 with
        | ',' :: r4 => (jsonMembers fuel r4).map (fun p => ((String.mk key, j) :: p.1, p.2))
        | '}' :: r4 => some ([(String.mk key, j)], r4)
        | _ => none
      | _ => none
    | _ => none

end

/-- Modelled from the spec §4.1/§7: strict JSON parse of a text; the whole
text must be one JSON value (plus whitespace), anything else is a
SyntaxError-kind failure — never a best-effort partial parse. -/
def jsonParse (t : String) : Except JsonErr Json :=
  match jsonVal (2 * t.data.length + 2) t.data with
  | some (j, r) => if (jsonWs r).isEmpty then .ok j else .error (.synErr "trailing characters")
  | none => .error (.synErr "invalid JSON")

/-- Modelled from the spec §4.1: `toJson()` is "`toText()` then strict JSON
parse; fails with kind SyntaxError on invalid JSON". -/
def Body.toJson (b : Body) : Except JsonErr Json := jsonParse b.toText

example : jsonParse "null" = .ok .null := by rfl
example : jsonParse " [1, true, \"a\"] " =
    .ok (.arr [.num "1", .bool true, .str "a"]) := by rfl
example : (jsonParse "nul").isOk = false := by rfl
example : (jsonParse "[1,]").isOk = false := by rfl
example : (jsonParse "01").isOk = false := by rfl
example : Body.toJson (Body.construct (Bytes.str "[-1.5e3]")) =
    .ok (.arr [.num "-1.5e3"]) := by rfl

/-- Modelled from the spec §3/§9: the case-insensitive, order- and
case-preserving header multimap — "an ordered sequence of values keyed by a
case-normalized lookup index, while preserving original casing". -/
abbrev Headers := List (String × List String)

/-- Case normalization used for header-name lookup. -/
def lowerStr (s : String) : String := String.mk (s.data.map Char.toLower)

/-- Modelled from the spec §4.2: `getHeader(name)` "is case-insensitive and
returns the ordered value sequence for that name, or absent-marker if never
set". -/
def getHeaderCI (hs : Headers) (name : String) : Option (List String) :=
  (hs.find? (fun kv => lowerStr kv.1 == lowerStr name)).map Prod.snd

/-- Modelled from the spec §4.2: `removeHeader(name)` "removes all stored
values under any case variant matching name". -/
def removeHeaderCI (hs : Headers) (name : String) : Headers :=
  hs.filter (fun kv => !(lowerStr kv.1 == lowerStr name))

/-- Modelled from the spec §4.2: `setHeader(name, value)` stores `value` as
the value sequence for `name`, replacing any case variant of it. -/
def setHeaderCI (hs : Headers) (name value : String) : Headers :=
  removeHeaderCI hs name ++ [(name, [value])]

/-- Modelled from the spec §3: an immutable captured request — "id, host,
port, tls flag, method, path, query string, header multimap, optional
body". -/
structure Request where
  id : String
  host : String
  port : Nat
  tls : Bool
  method : String
  path : String
  query : String
  headers : Headers
  body : Option Body

def Request.getId (r : Request) : String := r.id

def Request.getHost (r : Request) : String := r.host

def Request.getPort (r : Request) : Nat := r.port

def Request.getTls (r : Request) : Bool := r.tls

def Request.getMethod (r : Request) : String := r.method

def Request.getPath (r : Request) : String := r.path

def Request.getQuery (r : Request) : String := r.query

def Request.getHeaders (r : Request) : Headers := r.headers

def Request.getHeader (r : Request) (name : String) : Option (List String) :=
  getHeaderCI r.headers name

def Request.getBody (r : Request) : Option Body := r.body

/-- Modelled from the spec §3: the mutable structured `RequestSpec` state —
"host, port, tls flag, method, path, query, header multimap, optional
body". -/
structure RequestSpec where
  host : String
  port : Nat
  tls : Bool
  method : String
  path : String
  query : String
  headers : Headers
  body : Option Body

/-- Modelled from the source `SetBodyOptions` (common.d.ts): option record for
`setBody`, with `updateContentLength` defaulting to `true`. -/
structure SetBodyOptions where
  updateContentLength : Bool := true

/-- Modelled from the spec §3/§8: `toSpec()` "produces a disconnected,
independently mutable copy" whose field values equal the request's at the
moment of conversion. -/
def Request.toSpec (r : Request) : RequestSpec :=
  { host := r.host, port := r.port, tls := r.tls, method := r.method,
    path := r.path, query := r.query, headers := r.headers, body := r.body }

def RequestSpec.getHost (s : RequestSpec) : String := s.host

def RequestSpec.getPort (s : RequestSpec) : Nat := s.port

def RequestSpec.getTls (s : RequestSpec) : Bool := s.tls

def RequestSpec.getMethod (s : RequestSpec) : String := s.method

def RequestSpec.getPath (s : RequestSpec) : String := s.path

def RequestSpec.getQuery (s : RequestSpec) : String := s.query

def RequestSpec.getHeaders (s : RequestSpec) : Headers := s.headers

def RequestSpec.getHeader (s : RequestSpec) (name : String) : Option (List String) :=
  getHeaderCI s.headers name

def RequestSpec.getBody (s : RequestSpec) : Option Body := s.body

def RequestSpec.setHost (s : RequestSpec) (h : String) : RequestSpec := { s with host := h }

def RequestSpec.setPort (s : RequestSpec) (p : Nat) : RequestSpec := { s with port := p }

def RequestSpec.setTls (s : RequestSpec) (t : Bool) : RequestSpec := { s with tls := t }

def RequestSpec.setMethod (s : RequestSpec) (m : String) : RequestSpec := { s with method := m }

def RequestSpec.setPath (s : RequestSpec) (p : String) : RequestSpec := { s with path := p }

def RequestSpec.setQuery (s : RequestSpec) (q : String) : RequestSpec := { s with query := q }

def RequestSpec.setHeader (s : RequestSpec) (name value : String) : RequestSpec :=
  { s with headers := setHeaderCI s.headers name value }

def RequestSpec.removeHeader (s : RequestSpec) (name : String) : RequestSpec :=
  { s with headers := removeHeaderCI s.headers name }

/-- Modelled from the spec §4.2: `setBody` replaces the body; with
`updateContentLength` true (the default) it "recomputes and overwrites the
content-length header to match the new body's byte length"; with false it
"leaves headers untouched". -/
def RequestSpec.setBody (s : RequestSpec) (b : Body) (o : SetBodyOptions) : RequestSpec :=
  if o.updateContentLength then
    { s with body := some b,
             headers := setHeaderCI s.headers "Content-Length" (toString b.bytes.length) }
  else { s with body := some b }

/-- Modelled from the spec §3: the mutable raw spec — "host, port, tls flag,
plus an opaque raw byte buffer holding the entire request verbatim". -/
structure RequestSpecRaw where
  host : String
  port : Nat
  tls : Bool
  raw : List Nat

def RequestSpecRaw.getHost (s : RequestSpecRaw) : String := s.host

def RequestSpecRaw.getPort (s : RequestSpecRaw) : Nat := s.port

def RequestSpecRaw.getTls (s : RequestSpecRaw) : Bool := s.tls

def RequestSpecRaw.getRaw (s : RequestSpecRaw) : List Nat := s.raw

def RequestSpecRaw.setRaw (s : RequestSpecRaw) (v : Bytes) : RequestSpecRaw :=
  { s with raw := v.normalize }

def RequestSpecRaw.setHost (s : RequestSpecRaw) (h : String) : RequestSpecRaw := { s with host := h }

def RequestSpecRaw.setPort (s : RequestSpecRaw) (p : Nat) : RequestSpecRaw := { s with port := p }

def RequestSpecRaw.setTls (s : RequestSpecRaw) (t : Bool) : RequestSpecRaw := { s with tls := t }

/-- Modelled from the spec §4.2/§9: `setRaw(raw)` on a structured spec
"discards all structured state and produces a `RequestSpecRaw` seeded with the
given bytes", keeping host/port/tls as the transport target. -/
def RequestSpec.setRaw (s : RequestSpec) (v : Bytes) : RequestSpecRaw :=
  { host := s.host, port := s.port, tls := s.tls, raw := v.normalize }

/-- Modelled from the spec §9: the spec instance held by a script is a tagged
variant, "(structured | raw) rather than subclassing"; `setRaw` is the only
transition and it is one-directional. -/
inductive SpecState where
  | structured (s : RequestSpec)
  | raw (s : RequestSpecRaw)

/-- One mutation a script can apply to its spec instance: any setter,
`removeHeader`, `setBody` or `setRaw`. -/
inductive Mutation where
  | setHost (h : String)
  | setPort (p : Nat)
  | setTls (t : Bool)
  | setMethod (m : String)
  | setPath (p : String)
  | setQuery (q : String)
  | setHeader (name value : String)
  | removeHeader (name : String)
  | setBody (b : Body) (o : SetBodyOptions)
  | setRaw (v : Bytes)

/-- Modelled from the spec §4.2: effect of one mutation on the spec instance.
On a structured spec every operation acts as declared; on a raw spec only
host/port/tls setters and `setRaw` exist, the rest are absent (identity
here). -/
def applyMutation (m : Mutation) : SpecState → SpecState
  | .structured s =>
    match m with
    | .setHost h => .structured (s.setHost h)
    | .setPort p => .structured (s.setPort p)
    | .setTls t => .structured (s.setTls t)
    | .setMethod v => .structured (s.setMethod v)
    | .setPath v => .structured (s.setPath v)
    | .setQuery v => .structured (s.setQuery v)
    | .setHeader n v => .structured (s.setHeader n v)
    | .removeHeader n => .structured (s.removeHeader n)
    | .setBody b o => .structured (s.setBody b o)
    | .setRaw v => .raw (s.setRaw v)
  | .raw s =>
    match m with
    | .setHost h => .raw (s.setHost h)
    | .setPort p => .raw (s.setPort p)
    | .setTls t => .raw (s.setTls t)
    | .setRaw v => .raw (s.setRaw v)
    | _ => .raw s

/-- Modelled from the spec §3/§9: the script's view after `toSpec()` — the
original immutable `Request` and the derived spec instance, "two distinct
concrete types connected only by explicit, copying conversion operations",
sharing no mutable state.  A mutation therefore acts on the spec component
only. -/
def scriptStep (st : Request × SpecState) (m : Mutation) : Request × SpecState :=
  (st.1, applyMutation m st.2)

/-- URL scheme accepted by the spec constructors (§4.2: tls/port defaulting is
defined for `https` and `http`). -/
inductive Scheme where
  | http
  | https
deriving DecidableEq, Repr

/-- Modelled from the spec §4.2: the outcome of parsing a URL string into
"scheme+host[+port]+path+query". -/
structure ParsedUrl where
  scheme : Scheme
  host : String
  explicitPort : Option Nat
  path : String
  query : String
deriving DecidableEq, Repr

/-- Modelled from the spec §7: the Error kind "raised synchronously when
constructing a `RequestSpec` from an unparseable URL string". -/
inductive UrlErr where
  | invalidUrl (msg : String)
deriving DecidableEq, Repr

/-- Scheme prefix recognition of a URL character list. -/
def stripScheme : List Char → Option (Scheme × List Char)
  | 'h' :: 't' :: 't' :: 'p' :: 's' :: ':' :: '/' :: '/' :: r => some (.https, r)
  | 'h' :: 't' :: 't' :: 'p' :: ':' :: '/' :: '/' :: r => some (.http, r)
  | _ => none

/-- Characters terminating the host component. -/
def isHostEnd (c : Char) : Bool := c == ':' || c == '/' || c == '?'

/-- Decimal value of a digit character list. -/
def digitsToNat (cs : List Char) : Nat :=
  cs.foldl (fun acc c => acc * 10 + (c.toNat - '0'.toNat)) 0

/-- Path and query split: the remainder after the authority starts with `/`,
`?`, or is empty; the path defaults to "/" and the query to "". -/
def splitPathQuery (cs : List Char) : String × String :=
  match cs with
  | '?' :: q => ("/", String.mk q)
  | _ =>
    let p := cs.takeWhile (fun c => !(c == '?'))
    let rest := cs.dropWhile (fun c => !(c == '?'))
    (if p.isEmpty then "/" else String.mk p,
     match rest with
     | '?' :: q => String.mk q
     | _ => "")

/-- Modelled from the spec §4.2: URL parsing for the spec constructors — "must
fail with an `Error` kind if the URL cannot be parsed into
scheme+host[+port]+path+query". -/
def parseUrl (u : String) : Except UrlErr ParsedUrl :=
  match stripScheme u.data with
  | none => .error (.invalidUrl "unsupported or missing scheme")
  | some (sch, afterScheme) =>
    let hostChars := afterScheme.takeWhile (fun c => !(isHostEnd c))
    let afterHost := afterScheme.dropWhile (fun c => !(isHostEnd c))
    if hostChars.isEmpty then .error (.invalidUrl "empty host")
    else
      match afterHost with
      | ':' :: pr =>
        let portDigits := pr.takeWhile Char.isDigit
        let afterPort := pr.dropWhile Char.isDigit
        if portDigits.isEmpty then .error (.invalidUrl "empty port")
        else if digitsToNat portDigits > 65535 then .error (.invalidUrl "port out of range")
        else
          match afterPort with
          | [] =>
            .ok { scheme := sch, host := String.mk hostChars,
                  explicitPort := some (digitsToNat portDigits),
                  path := "/", query := "" }
          | c :: _ =>
            if c == '/' ∨ c == '?' then
              let (p, q) := splitPathQuery afterPort
              .ok { scheme := sch, host := String.mk hostChars,
                    explicitPort := some (digitsToNat portDigits), path := p, query := q }
            else .error (.invalidUrl "invalid port")
      | _ =>
        let (p, q) := splitPathQuery afterHost
        .ok { scheme := sch, host := String.mk hostChars,
              explicitPort := none, path := p, query := q }

/-- Modelled from the spec §4.2: scheme-inferred default port — "https→tls on,
port 443; http→tls off, port 80". -/
def defaultPort : Scheme → Nat
  | .http => 80
  | .https => 443

/-- Modelled from the spec §4.2: scheme-inferred tls flag. -/
def schemeTls : Scheme → Bool
  | .http => false
  | .https => true

/-- Spec fields derived from a parsed URL: explicit port if the URL gives one,
scheme default otherwise; fresh spec starts with method GET, no headers, no
body. -/
def RequestSpec.ofParsed (p : ParsedUrl) : RequestSpec :=
  { host := p.host, port := p.explicitPort.getD (defaultPort p.scheme),
    tls := schemeTls p.scheme, method := "GET", path := p.path, query := p.query,
    headers := [], body := none }

/-- Modelled from the spec §4.2: the `RequestSpec(url)` constructor. -/
def RequestSpec.ofUrl (u : String) : Except UrlErr RequestSpec :=
  (parseUrl u).map RequestSpec.ofParsed

/-- Modelled from the spec §4.2 (the section covers both spec forms): the
`RequestSpecRaw(url)` constructor derives host/port/tls from the URL exactly
as `RequestSpec(url)` does; no raw bytes exist yet, so the buffer starts
empty. -/
def RequestSpecRaw.ofParsed (p : ParsedUrl) : RequestSpecRaw :=
  { host := p.host, port := p.explicitPort.getD (defaultPort p.scheme),
    tls := schemeTls p.scheme, raw := [] }

/-- Modelled from the spec §4.2: the `RequestSpecRaw(url)` constructor. -/
def RequestSpecRaw.ofUrl (u : String) : Except UrlErr RequestSpecRaw :=
  (parseUrl u).map RequestSpecRaw.ofParsed

/-- Modelled from the spec §4.5: the facade's `asString(bytes)` — "same
lossy-decode contract as `Body.toText()`, but operating directly on a raw
byte value without constructing a `Body`". -/
def SDK.asString (v : Bytes) : String :=
  String.mk ((utf8DecodeReplace v.normalize).map Char.ofNat)

example : parseUrl "https://example.com/a?x=1" =
    .ok { scheme := .https, host := "example.com", explicitPort := none,
          path := "/a", query := "x=1" } := by rfl
example : parseUrl "http://h:8080" =
    .ok { scheme := .http, host := "h", explicitPort := some 8080,
          path := "/", query := "" } := by rfl
example : (parseUrl "example.com").isOk = false := by rfl
example : (parseUrl "https://").isOk = false := by rfl
example : (parseUrl "http://h:12ab").isOk = false := by rfl

/-- One declared operation of a TypeScript interface or class: its name and
its declared signature text. -/
structure Op where
  name : String
  sig : String
deriving DecidableEq, Repr

/-- Operations of `Request` as declared in the `caido:utils` module
(src/types/common.d.ts, lines 32–45), embedded verbatim. -/
def moduleRequestOps : List Op :=
  [⟨"getId", "(): ID"⟩,
   ⟨"getHost", "(): string"⟩,
   ⟨"getPort", "(): number"⟩,
   ⟨"getTls", "(): boolean"⟩,
   ⟨"getMethod", "(): string"⟩,
   ⟨"getPath", "(): string"⟩,
   ⟨"getQuery", "(): string"⟩,
   ⟨"getHeaders", "(): Record<string, Array<string>>"⟩,
   ⟨"getHeader", "(name: string): Array<string> | undefined"⟩,
   ⟨"getBody", "(): Body | undefined"⟩,
   ⟨"toSpec", "(): RequestSpec"⟩,
   ⟨"toSpecRaw", "(): RequestSpecRaw"⟩]

/-- Operations of the global `Request` declaration (part_000, lines 44–55),
embedded verbatim. -/
def globalRequestOps : List Op :=
  [⟨"getId", "(): ID"⟩,
   ⟨"getHost", "(): string"⟩,
   ⟨"getPort", "(): number"⟩,
   ⟨"getTls", "(): boolean"⟩,
   ⟨"getMethod", "(): string"⟩,
   ⟨"getPath", "(): string"⟩,
   ⟨"getQuery", "(): string"⟩,
   ⟨"getHeader", "(name: string): Array<string> | undefined"⟩,
   ⟨"getBody", "(): Body | undefined"⟩,
   ⟨"toSpec", "(): RequestSpec"⟩]

/-- Operations of `RequestSpec` as declared in the `caido:utils` module
(src/types/common.d.ts, lines 59–80), embedded verbatim. -/
def moduleRequestSpecOps : List Op :=
  [⟨"constructor", "(url: string)"⟩,
   ⟨"getHost", "(): string"⟩,
   ⟨"setHost", "(host: string): void"⟩,
   ⟨"getPort", "(): number"⟩,
   ⟨"setPort", "(port: number): void"⟩,
   ⟨"getTls", "(): boolean"⟩,
   ⟨"setTls", "(tls: boolean): void"⟩,
   ⟨"getMethod", "(): string"⟩,
   ⟨"setMethod", "(method: string): void"⟩,
   ⟨"getPath", "(): string"⟩,
   ⟨"setPath", "(path: string): void"⟩,
   ⟨"getQuery", "(): string"⟩,
   ⟨"setQuery", "(query: string): void"⟩,
   ⟨"getHeaders", "(): Record<string, Array<string>>"⟩,
   ⟨"getHeader", "(name: string): Array<string> | undefined"⟩,
   ⟨"setHeader", "(name: string, value: string): void"⟩,
   ⟨"removeHeader", "(name: string): void"⟩,
   ⟨"getBody", "(): Body | undefined"⟩,
   ⟨"setBody", "(body: Body | Bytes, options?: SetBodyOptions): void"⟩,
   ⟨"setRaw", "(raw: Bytes): RequestSpecRaw"⟩]

/-- Operations of the global `RequestSpec` declaration (part_000, lines
60–78), embedded verbatim. -/
def globalRequestSpecOps : List Op :=
  [⟨"constructor", "(url: string)"⟩,
   ⟨"getHost", "(): string"⟩,
   ⟨"setHost", "(host: string): void"⟩,
   ⟨"getPort", "(): number"⟩,
   ⟨"setPort", "(port: number): void"⟩,
   ⟨"getTls", "(): boolean"⟩,
   ⟨"setTls", "(tls: boolean): void"⟩,
   ⟨"getMethod", "(): string"⟩,
   ⟨"setMethod", "(method: string): void"⟩,
   ⟨"getPath", "(): string"⟩,
   ⟨"setPath", "(path: string): void"⟩,
   ⟨"getQuery", "(): string"⟩,
   ⟨"setQuery", "(query: string): void"⟩,
   ⟨"getHeader", "(name: string): Array<string> | undefined"⟩,
   ⟨"setHeader", "(name: string, value: string): void"⟩,
   ⟨"getBody", "(): Body | undefined"⟩,
   ⟨"setBody", "(body: Body | Bytes): void"⟩]

/-- Operations of `RequestsSDK` as declared in the `caido:utils` module
(src/types/common.d.ts, lines 119–149), embedded verbatim. -/
def moduleRequestsSDKOps : List Op :=
  [⟨"send", "(request: RequestSpec | RequestSpecRaw): Promise<RequestResponse>"⟩,
   ⟨"inScope", "(request: Request | RequestSpec): boolean"⟩]

/-- Operations of the global `RequestsSDK` declaration (part_000, lines
101–121), embedded verbatim; note the return type `RequestReponse` (sic). -/
def globalRequestsSDKOps : List Op :=
  [⟨"send", "(request: RequestSpec): Promise<RequestReponse>"⟩]

/-- Two declaration sets are interface-equivalent when they declare exactly
the same operations with the same signatures. -/
def InterfaceEquiv (a b : List Op) : Prop := ∀ o : Op, o ∈ a ↔ o ∈ b

theorem utf8DecodeGo_ascii (b0 : Nat) (h : b0 < 0x80) (r : List Nat) :
    utf8DecodeGo b0 r = b0 :: utf8DecodeReplace r := by
  rcases r with _ | ⟨b1, _ | ⟨b2, _ | ⟨b3, _ | ⟨b4, rr⟩⟩⟩⟩ <;>
    simp [utf8DecodeGo, utf8DecodeReplace, isAscii, h]

theorem utf8DecodeGo_two (b0 b1 : Nat) (h0 : isLead2 b0) (h1 : isCont b1) (r : List Nat) :
    utf8DecodeGo b0 (b1 :: r) = cp2 b0 b1 :: utf8DecodeReplace r := by
  obtain ⟨ha, hb⟩ := h0
  obtain ⟨hc, hd⟩ := h1
  have hna : ¬ isAscii b0 := by simp [isAscii]; omega
  rcases r with _ | ⟨b2, _ | ⟨b3, _ | ⟨b4, rr⟩⟩⟩ <;>
    simp [utf8DecodeGo, utf8DecodeReplace, hna, isLead2, isCont, ha, hb, hc, hd]

theorem utf8DecodeGo_three (b0 b1 b2 : Nat) (h0 : isLead3 b0) (h1 : cont3ok b0 b1)
    (h2 : isCont b2) (r : List Nat) :
    utf8DecodeGo b0 (b1 :: b2 :: r) = cp3 b0 b1 b2 :: utf8DecodeReplace r := by
  obtain ⟨ha, hb⟩ := h0
  have hna : ¬ isAscii b0 := by simp [isAscii]; omega
  have hn2 : ¬ (isLead2 b0 ∧ isCont b1) := by simp [isLead2, isCont]; omega
  rcases r with _ | ⟨b3, _ | ⟨b4, rr⟩⟩ <;>
    simp [utf8DecodeGo, utf8DecodeReplace, hna, hn2, isLead3, ha, hb, h1, h2]

theorem utf8DecodeGo_four (b0 b1 b2 b3 : Nat) (h0 : isLead4 b0) (h1 : cont4ok b0 b1)
    (h2 : isCont b2) (h3 : isCont b3) (r : List Nat) :
    utf8DecodeGo b0 (b1 :: b2 :: b3 :: r) = cp4 b0 b1 b2 b3 :: utf8DecodeReplace r := by
  obtain ⟨ha, hb⟩ := h0
  have hna : ¬ isAscii b0 := by simp [isAscii]; omega
  have hn2 : ¬ (isLead2 b0 ∧ isCont b1) := by simp [isLead2, isCont]; omega
  have hn3 : ¬ (isLead3 b0 ∧ cont3ok b0 b1 ∧ isCont b2) := by
    simp [isLead3, cont3ok, isCont]; omega
  rcases r with _ | ⟨b4, rr⟩ <;>
    simp [utf8DecodeGo, utf8DecodeReplace, hna, hn2, hn3, isLead4, ha, hb, h1, h2, h3]

theorem utf8EncodeCodepoint_ne_nil (cp : Nat) : utf8EncodeCodepoint cp ≠ [] := by
  unfold utf8EncodeCodepoint
  split_ifs <;> simp

theorem utf8DecodeReplace_encode (cp : Nat) (h : ValidCp cp) (r : List Nat) :
    utf8DecodeReplace (utf8EncodeCodepoint cp ++ r) = cp :: utf8DecodeReplace r := by
  have hv : cp < 0xd800 ∨ (0xdfff < cp ∧ cp < 0x110000) := h
  unfold utf8EncodeCodepoint
  split_ifs with h1 h2 h3
  · rw [show [cp] ++ r = cp :: r from rfl]
    rw [show utf8DecodeReplace (cp :: r) = utf8DecodeGo cp r from rfl]
    exact utf8DecodeGo_ascii cp h1 r
  · rw [show [0xC0 + cp / 64, 0x80 + cp % 64] ++ r = (0xC0 + cp / 64) :: ((0x80 + cp % 64) :: r) from rfl]
    rw [show utf8DecodeReplace ((0xC0 + cp / 64) :: ((0x80 + cp % 64) :: r)) =
      utf8DecodeGo (0xC0 + cp / 64) ((0x80 + cp % 64) :: r) from rfl]
    rw [utf8DecodeGo_two _ _ ⟨by omega, by omega⟩ ⟨by omega, by omega⟩ r]
    have : cp2 (0xC0 + cp / 64) (0x80 + cp % 64) = cp := by unfold cp2; omega
    rw [this]
  · rw [show [0xE0 + cp / 4096, 0x80 + cp / 64 % 64, 0x80 + cp % 64] ++ r =
      (0xE0 + cp / 4096) :: ((0x80 + cp / 64 % 64) :: ((0x80 + cp % 64) :: r)) from rfl]
    rw [show utf8DecodeReplace ((0xE0 + cp / 4096) :: ((0x80 + cp / 64 % 64) :: ((0x80 + cp % 64) :: r))) =
      utf8DecodeGo (0xE0 + cp / 4096) ((0x80 + cp / 64 % 64) :: ((0x80 + cp % 64) :: r)) from rfl]
    rw [utf8DecodeGo_three _ _ _ ⟨by omega, by omega⟩
      (by constructor <;> split_ifs <;> omega) ⟨by omega, by omega⟩ r]
    have : cp3 (0xE0 + cp / 4096) (0x80 + cp / 64 % 64) (0x80 + cp % 64) = cp := by
      unfold cp3; omega
    rw [this]
  · rw [show [0xF0 + cp / 262144, 0x80 + cp / 4096 % 64, 0x80 + cp / 64 % 64, 0x80 + cp % 64] ++ r =
      (0xF0 + cp / 262144) :: ((0x80 + cp / 4096 % 64) :: ((0x80 + cp / 64 % 64) :: ((0x80 + cp % 64) :: r))) from rfl]
    rw [show utf8DecodeReplace ((0xF0 + cp / 262144) :: ((0x80 + cp / 4096 % 64) :: ((0x80 + cp / 64 % 64) :: ((0x80 + cp % 64) :: r)))) =
      utf8DecodeGo (0xF0 + cp / 262144) ((0x80 + cp / 4096 % 64) :: ((0x80 + cp / 64 % 64) :: ((0x80 + cp % 64) :: r))) from rfl]
    rw [utf8DecodeGo_four _ _ _ _ ⟨by omega, by omega⟩
      (by constructor <;> split_ifs <;> omega) ⟨by omega, by omega⟩ ⟨by omega, by omega⟩ r]
    have : cp4 (0xF0 + cp / 262144) (0x80 + cp / 4096 % 64) (0x80 + cp / 64 % 64) (0x80 + cp % 64) = cp := by
      unfold cp4; omega
    rw [this]

theorem utf8DecodeReplace_flat (cs : List Char) :
    utf8DecodeReplace (cs.flatMap (fun c => utf8EncodeCodepoint c.toNat)) = cs.map Char.toNat := by
  induction cs with
  | nil => rfl
  | cons c cs ih =>
    rw [List.flatMap_cons, utf8DecodeReplace_encode c.toNat c.valid, ih, List.map_cons]

theorem utf8DecodeReplace_utf8Encode (s : String) :
    utf8DecodeReplace (utf8Encode s) = s.data.map Char.toNat :=
  utf8DecodeReplace_flat s.data

theorem toText_of_encoded (t : String) (b : Body) (h : b.bytes = utf8Encode t) :
    Body.toText b = t := by
  unfold Body.toText
  rw [h, utf8DecodeReplace_utf8Encode, List.map_map]
  have : (Char.ofNat ∘ Char.toNat) = id := by
    funext c
    simp
  rw [this, List.map_id]

theorem encode_of_ascii (b : Nat) (h : b < 0x80) :
    utf8EncodeCodepoint b = [b] ∧ ValidCp b := by
  unfold utf8EncodeCodepoint ValidCp Nat.isValidChar
  constructor
  · rw [if_pos h]
  · omega

theorem encode_of_cp2 (b0 b1 : Nat) (h0 : isLead2 b0) (h1 : isCont b1) :
    utf8EncodeCodepoint (cp2 b0 b1) = [b0, b1] ∧ ValidCp (cp2 b0 b1) := by
  obtain ⟨a, b⟩ := h0
  obtain ⟨c, d⟩ := h1
  unfold utf8EncodeCodepoint cp2 ValidCp Nat.isValidChar
  constructor
  · split_ifs <;> simp <;> omega
  · omega

theorem encode_of_cp3 (b0 b1 b2 : Nat) (h0 : isLead3 b0) (h1 : cont3ok b0 b1) (h2 : isCont b2) :
    utf8EncodeCodepoint (cp3 b0 b1 b2) = [b0, b1, b2] ∧ ValidCp (cp3 b0 b1 b2) := by
  obtain ⟨a, b⟩ := h0
  obtain ⟨e, f⟩ := h2
  unfold cont3ok at h1
  obtain ⟨c, d⟩ := h1
  split_ifs at c d with hc hd
  all_goals
    unfold utf8EncodeCodepoint cp3 ValidCp Nat.isValidChar
  all_goals
    constructor
  all_goals
    first
    | omega
    | (split_ifs <;> simp <;> omega)

theorem encode_of_cp4 (b0 b1 b2 b3 : Nat) (h0 : isLead4 b0) (h1 : cont4ok b0 b1)
    (h2 : isCont b2) (h3 : isCont b3) :
    utf8EncodeCodepoint (cp4 b0 b1 b2 b3) = [b0, b1, b2, b3] ∧ ValidCp (cp4 b0 b1 b2 b3) := by
  obtain ⟨a, b⟩ := h0
  obtain ⟨e, f⟩ := h2
  obtain ⟨g, i⟩ := h3
  unfold cont4ok at h1
  obtain ⟨c, d⟩ := h1
  split_ifs at c d with hc hd
  all_goals
    unfold utf8EncodeCodepoint cp4 ValidCp Nat.isValidChar
  all_goals
    constructor
  all_goals
    first
    | omega
    | (split_ifs <;> simp <;> omega)

theorem utf8DecodeGo_fffd (b0 : Nat) (r : List Nat)
    (hA : ¬ isAscii b0)
    (hB : ∀ b1 r1, r = b1 :: r1 → ¬ (isLead2 b0 ∧ isCont b1))
    (hC : ∀ b1 b2 r2, r = b1 :: b2 :: r2 → ¬ (isLead3 b0 ∧ cont3ok b0 b1 ∧ isCont b2))
    (hD : ∀ b1 b2 b3 r3, r = b1 :: b2 :: b3 :: r3 →
      ¬ (isLead4 b0 ∧ cont4ok b0 b1 ∧ isCont b2 ∧ isCont b3)) :
    utf8DecodeGo b0 r = 0xFFFD :: utf8DecodeReplace r := by
  rcases r with _ | ⟨b1, _ | ⟨b2, _ | ⟨b3, _ | ⟨b4, rr⟩⟩⟩⟩
  · simp [utf8DecodeGo, utf8DecodeReplace, hA]
  · have n2 := hB b1 [] rfl
    simp [utf8DecodeGo, utf8DecodeReplace, hA, n2]
  · have n2 := hB b1 [b2] rfl
    have n3 := hC b1 b2 [] rfl
    simp [utf8DecodeGo, utf8DecodeReplace, hA, n2, n3]
  · have n2 := hB b1 [b2, b3] rfl
    have n3 := hC b1 b2 [b3] rfl
    have n4 := hD b1 b2 b3 [] rfl
    simp [utf8DecodeGo, utf8DecodeReplace, hA, n2, n3, n4]
  · have n2 := hB b1 (b2 :: b3 :: b4 :: rr) rfl
    have n3 := hC b1 b2 (b3 :: b4 :: rr) rfl
    have n4 := hD b1 b2 b3 (b4 :: rr) rfl
    simp [utf8DecodeGo, utf8DecodeReplace, hA, n2, n3, n4]

theorem utf8DecodeGo_invalid (b : Nat) (r : List Nat) (h : ¬ ValidStart (b :: r)) :
    utf8DecodeGo b r = 0xFFFD :: utf8DecodeReplace r := by
  apply utf8DecodeGo_fffd
  · intro hA
    exact h ⟨b, r, (encode_of_ascii b hA).2, by rw [(encode_of_ascii b hA).1]; rfl⟩
  · rintro b1 r1 rfl ⟨c1, c2⟩
    exact h ⟨cp2 b b1, r1, (encode_of_cp2 b b1 c1 c2).2,
      by rw [(encode_of_cp2 b b1 c1 c2).1]; rfl⟩
  · rintro b1 b2 r2 rfl ⟨c1, c2, c3⟩
    exact h ⟨cp3 b b1 b2, r2, (encode_of_cp3 b b1 b2 c1 c2 c3).2,
      by rw [(encode_of_cp3 b b1 b2 c1 c2 c3).1]; rfl⟩
  · rintro b1 b2 b3 r3 rfl ⟨c1, c2, c3, c4⟩
    exact h ⟨cp4 b b1 b2 b3, r3, (encode_of_cp4 b b1 b2 b3 c1 c2 c3 c4).2,
      by rw [(encode_of_cp4 b b1 b2 b3 c1 c2 c3 c4).1]; rfl⟩

theorem lossyDecode_utf8DecodeReplace (bs : List Nat) :
    LossyDecode bs (utf8DecodeReplace bs) := by
  generalize hn : bs.length = n
  induction n using Nat.strong_induction_on generalizing bs with
  | _ n ih =>
    cases bs with
    | nil => exact LossyDecode.nil
    | cons b r =>
      by_cases hv : ValidStart (b :: r)
      · obtain ⟨cp, r', hcp, heq⟩ := hv
        have hlen : (utf8EncodeCodepoint cp).length + r'.length = n := by
          rw [← hn, heq, List.length_append]
        have hpos : 0 < (utf8EncodeCodepoint cp).length :=
          List.length_pos.mpr (utf8EncodeCodepoint_ne_nil cp)
        rw [heq, utf8DecodeReplace_encode cp hcp r']
        exact LossyDecode.valid cp r' _ hcp (ih r'.length (by omega) r' rfl)
      · have hlen : r.length + 1 = n := by rw [← hn]; rfl
        rw [show utf8DecodeReplace (b :: r) = utf8DecodeGo b r from rfl,
          utf8DecodeGo_invalid b r hv]
        exact LossyDecode.replace b r _ hv (ih r.length (by omega) r rfl)

theorem find?_removeHeaderCI (hs : Headers) (n m : String) (h : lowerStr m = lowerStr n) :
    List.find? (fun kv => lowerStr kv.1 == lowerStr m) (removeHeaderCI hs n) = none := by
  rw [List.find?_eq_none]
  intro x hx
  have hmem := (List.mem_filter.mp hx).2
  simp only [Bool.not_eq_eq_eq_not, Bool.not_true, beq_eq_false_iff_ne, ne_eq] at hmem
  simp only [beq_iff_eq, h]
  exact hmem

theorem getHeaderCI_removeHeaderCI (hs : Headers) (n m : String) (h : lowerStr m = lowerStr n) :
    getHeaderCI (removeHeaderCI hs n) m = none := by
  unfold getHeaderCI
  rw [find?_removeHeaderCI hs n m h]
  rfl

theorem getHeaderCI_setHeaderCI (hs : Headers) (n v m : String) (h : lowerStr m = lowerStr n) :
    getHeaderCI (setHeaderCI hs n v) m = some [v] := by
  unfold setHeaderCI getHeaderCI
  rw [List.find?_append, find?_removeHeaderCI hs n m h]
  simp [List.find?_cons, h]

theorem foldl_scriptStep_fst (ms : List Mutation) (st : Request × SpecState) :
    (ms.foldl scriptStep st).1 = st.1 := by
  induction ms generalizing st with
  | nil => rfl
  | cons m ms ih => rw [List.foldl_cons]; exact ih _

theorem map_mod256_eq (b : List Nat) (h : ∀ x ∈ b, x < 256) :
    b.map (fun x => x % 256) = b := by
  induction b with
  | nil => rfl
  | cons x xs ih =>
    rw [List.map_cons, Nat.mod_eq_of_lt (h x (by simp)), ih (fun y hy => h y (by simp [hy]))]

/-- C1: for every immutable `Request` `r`, `r.toSpec()` produces a spec whose
host, port, tls, method, path, query, headers and body equal `r`'s at the
moment of conversion, and every subsequent sequence of mutations of that spec
(any setter, removeHeader, setBody, setRaw) leaves the `Request` component of
the script state — and hence the result of every accessor of `r` —
unchanged. -/
theorem C1_toSpec_snapshot_and_frame : ∀ r : Request,
    ((Request.toSpec r).getHost = r.getHost ∧
     (Request.toSpec r).getPort = r.getPort ∧
     (Request.toSpec r).getTls = r.getTls ∧
     (Request.toSpec r).getMethod = r.getMethod ∧
     (Request.toSpec r).getPath = r.getPath ∧
     (Request.toSpec r).getQuery = r.getQuery ∧
     (Request.toSpec r).getHeaders = r.getHeaders ∧
     (Request.toSpec r).getBody = r.getBody) ∧
    ∀ ms : List Mutation,
      (ms.foldl scriptStep (r, SpecState.structured (Request.toSpec r))).1 = r :=
  fun r =>
    ⟨⟨rfl, rfl, rfl, rfl, rfl, rfl, rfl, rfl⟩, fun ms => foldl_scriptStep_fst ms _⟩

/-- C2: for every byte sequence `b`, `Body(b).toRaw()` returns exactly the
bytes `b`, whichever of the three `Bytes` forms supplied them; the string form
contributes exactly its UTF-8 bytes. -/
theorem C2_body_toRaw_roundtrip :
    (∀ b : List Nat, (∀ x ∈ b, x < 256) →
      Body.toRaw (Body.construct (Bytes.arr b)) = b ∧
      Body.toRaw (Body.construct (Bytes.buf b)) = b) ∧
    (∀ s : String, Body.toRaw (Body.construct (Bytes.str s)) = utf8Encode s) := by
  constructor
  · intro b h
    constructor <;>
      simpa [Body.toRaw, Body.construct, Bytes.normalize] using map_mod256_eq b h
  · intro s
    rfl

theorem C2_witness :
    Body.toRaw (Body.construct (Bytes.arr [0, 255, 65])) = [0, 255, 65] ∧
    Body.toRaw (Body.construct (Bytes.buf [0, 255, 65])) = [0, 255, 65] :=
  C2_body_toRaw_roundtrip.1 [0, 255, 65] (by decide)

/-- C3: for every byte sequence `b`, `Body(b).toText()` is total (it is a
function into `String`, with no failure outcome), deterministic — any two
`Bytes` values carrying the same bytes decode to the same string — and decodes
by the replacement rule: every position is either a well-formed UTF-8 sequence
contributing its codepoint or an invalid position contributing U+FFFD
(`LossyDecode`); valid text is preserved exactly. -/
theorem C3_toText_total_deterministic :
    (∀ v : Bytes, ∃ s : String, Body.toText (Body.construct v) = s) ∧
    (∀ v w : Bytes, v.normalize = w.normalize →
      Body.toText (Body.construct v) = Body.toText (Body.construct w)) ∧
    (∀ bs : List Nat, LossyDecode bs (utf8DecodeReplace bs)) ∧
    (∀ s : String, Body.toText (Body.construct (Bytes.str s)) = s) := by
  refine ⟨fun v => ⟨_, rfl⟩, fun v w h => ?_, lossyDecode_utf8DecodeReplace, fun s => ?_⟩
  · unfold Body.toText Body.construct
    rw [h]
  · exact toText_of_encoded s _ rfl

theorem C3_witness :
    Body.toText (Body.construct (Bytes.arr [104, 105])) =
      Body.toText (Body.construct (Bytes.buf [104, 105])) :=
  C3_toText_total_deterministic.2.1 (Bytes.arr [104, 105]) (Bytes.buf [104, 105]) rfl

/-- C4: for every text `t` that is valid JSON (its strict parse succeeds),
`Body(bytes(t)).toJson()` succeeds and equals the parsed JSON structure of
`t`; for every text that is not valid JSON, `toJson()` fails with exactly the
parse's SyntaxError-kind error — never a best-effort partial parse. -/
theorem C4_toJson_strict : ∀ (t : String) (v : Bytes), v.normalize = utf8Encode t →
    (∀ j : Json, jsonParse t = .ok j → Body.toJson (Body.construct v) = .ok j) ∧
    (∀ e : JsonErr, jsonParse t = .error e →
      Body.toJson (Body.construct v) = .error e ∧ ∃ msg, e = .synErr msg) := by
  intro t v h
  have htext : Body.toText (Body.construct v) = t := toText_of_encoded t _ h
  unfold Body.toJson
  rw [htext]
  refine ⟨fun j hj => hj, fun e he => ⟨he, ?_⟩⟩
  cases e with
  | synErr m => exact ⟨m, rfl⟩

theorem C4_witness :
    Body.toJson (Body.construct (Bytes.str "[true, null]")) =
      .ok (Json.arr [Json.bool true, Json.null]) ∧
    Body.toJson (Body.construct (Bytes.str "nul")) = .error (.synErr "invalid JSON") :=
  ⟨(C4_toJson_strict "[true, null]" (Bytes.str "[true, null]") rfl).1 _ rfl,
   ((C4_toJson_strict "nul" (Bytes.str "nul") rfl).2 (.synErr "invalid JSON") rfl).1⟩

/-- C5: for every `RequestSpec` and body, `setBody` with `updateContentLength`
true (and the default options are `updateContentLength := true`) overwrites
the content-length header — under any case variant of the name — to exactly
the new body's byte length; with `updateContentLength` false every header is
left unchanged. -/
theorem C5_setBody_contentLength :
    ∀ (s : RequestSpec) (b : Body) (o : SetBodyOptions),
      (o.updateContentLength = true → ∀ m : String,
        lowerStr m = lowerStr "Content-Length" →
        RequestSpec.getHeader (s.setBody b o) m = some [toString b.bytes.length]) ∧
      (o.updateContentLength = false → (s.setBody b o).getHeaders = s.getHeaders) ∧
      ({} : SetBodyOptions).updateContentLength = true := by
  intro s b o
  refine ⟨fun h m hm => ?_, fun h => ?_, rfl⟩
  · unfold RequestSpec.setBody
    rw [h]
    simp only [if_true]
    exact getHeaderCI_setHeaderCI s.headers "Content-Length" _ m hm
  · unfold RequestSpec.setBody
    rw [h]
    simp [RequestSpec.getHeaders]

theorem C5_witness :
    RequestSpec.getHeader
      (RequestSpec.setBody
        ⟨"example.com", 80, false, "GET", "/", "", [("content-LENGTH", ["0"])], none⟩
        (Body.construct (Bytes.str "abc")) {}) "content-length" = some ["3"] :=
  (C5_setBody_contentLength
    ⟨"example.com", 80, false, "GET", "/", "", [("content-LENGTH", ["0"])], none⟩
    (Body.construct (Bytes.str "abc")) {}).1 rfl "content-length" (by decide)

/-- C6: constructing a `RequestSpec` from a URL parses it into host, port,
tls, path and query, inferring tls true and port 443 for scheme https and tls
false and port 80 for scheme http unless the URL gives an explicit port, and
fails synchronously with an Error kind on an unparseable URL; in particular
`RequestSpec("https://example.com/a?x=1")` yields host `example.com`, port
443, tls true, path `/a`, query `x=1`. -/
theorem C6_ofUrl :
    (RequestSpec.ofUrl "https://example.com/a?x=1" = .ok
      { host := "example.com", port := 443, tls := true, method := "GET",
        path := "/a", query := "x=1", headers := [], body := none }) ∧
    (∀ p : ParsedUrl, p.explicitPort = none →
      (p.scheme = .https →
        (RequestSpec.ofParsed p).getTls = true ∧ (RequestSpec.ofParsed p).getPort = 443) ∧
      (p.scheme = .http →
        (RequestSpec.ofParsed p).getTls = false ∧ (RequestSpec.ofParsed p).getPort = 80)) ∧
    (∀ (p : ParsedUrl) (n : Nat), p.explicitPort = some n →
      (RequestSpec.ofParsed p).getPort = n) ∧
    (∀ (u : String) (e : UrlErr), parseUrl u = .error e → RequestSpec.ofUrl u = .error e) ∧
    (∃ e : UrlErr, RequestSpec.ofUrl "example.com/a" = .error e) := by
  refine ⟨by rfl, ?_, ?_, ?_, ⟨.invalidUrl "unsupported or missing scheme", by rfl⟩⟩
  · intro p hp
    constructor <;> intro hs <;>
      simp [RequestSpec.ofParsed, RequestSpec.getTls, RequestSpec.getPort, hp, hs,
        defaultPort, schemeTls]
  · intro p n hp
    simp [RequestSpec.ofParsed, RequestSpec.getPort, hp]
  · intro u e he
    unfold RequestSpec.ofUrl
    rw [he]
    rfl

theorem C6_witness :
    ((RequestSpec.ofParsed ⟨.https, "example.com", none, "/a", "x=1"⟩).getTls = true ∧
     (RequestSpec.ofParsed ⟨.https, "example.com", none, "/a", "x=1"⟩).getPort = 443) ∧
    (RequestSpec.ofParsed ⟨.http, "example.com", some 8080, "/", ""⟩).getPort = 8080 ∧
    RequestSpec.ofUrl "://x" = .error (.invalidUrl "unsupported or missing scheme") :=
  ⟨(C6_ofUrl.2.1 ⟨.https, "example.com", none, "/a", "x=1"⟩ rfl).1 rfl,
   C6_ofUrl.2.2.1 ⟨.http, "example.com", some 8080, "/", ""⟩ 8080 rfl,
   C6_ofUrl.2.2.2.1 "://x" (.invalidUrl "unsupported or missing scheme") rfl⟩

/-- C7: for every `RequestSpec` and header name `n`, `removeHeader(n)` removes
all stored values under every case variant of `n`: a subsequent
`getHeader(m)` for any `m` equal to `n` up to case returns the absent marker
(`none`). -/
theorem C7_removeHeader_ci : ∀ (s : RequestSpec) (n m : String),
    lowerStr m = lowerStr n →
    RequestSpec.getHeader (s.removeHeader n) m = none :=
  fun s n m h => getHeaderCI_removeHeaderCI s.headers n m h

theorem C7_witness :
    RequestSpec.getHeader
      (RequestSpec.removeHeader
        ⟨"h", 80, false, "GET", "/", "", [("X-Token", ["a"]), ("x-token", ["b"])], none⟩
        "X-Token") "x-TOKEN" = none :=
  C7_removeHeader_ci
    ⟨"h", 80, false, "GET", "/", "", [("X-Token", ["a"]), ("x-token", ["b"])], none⟩
    "X-Token" "x-TOKEN" (by decide)

/-- C8: for every byte value in any of the three `Bytes` forms, the facade's
`asString` equals `Body`'s text decoding of a `Body` constructed from the same
value: the two are the same lossy replacement-character decoding function. -/
theorem C8_asString_eq_toText : ∀ v : Bytes,
    SDK.asString v = Body.toText (Body.construct v) :=
  fun _ => rfl

/-- C9 counterexample: the two declaration sets are not interface-equivalent —
`removeHeader` is declared on `RequestSpec` in the `caido:utils` module set
but absent from the global set. -/
theorem C9_counterexample :
    (⟨"removeHeader", "(name: string): void"⟩ : Op) ∈ moduleRequestSpecOps ∧
    (⟨"removeHeader", "(name: string): void"⟩ : Op) ∉ globalRequestSpecOps ∧
    ¬ InterfaceEquiv moduleRequestSpecOps globalRequestSpecOps := by
  refine ⟨by decide, by decide, fun h => ?_⟩
  exact absurd ((h ⟨"removeHeader", "(name: string): void"⟩).mp (by decide)) (by decide)

/-- C9 (amended): every operation declared in the global set for `Request`,
`RequestSpec` and `RequestsSDK` has an operation of the same name in the
`caido:utils` module set, and with the same signature except for
`RequestSpec.setBody` (module adds an optional options parameter) and
`RequestsSDK.send` (module accepts `RequestSpecRaw` too and returns
`RequestResponse`, not `RequestReponse`); the module set moreover declares
operations the global set lacks, so the two sets are not
interface-equivalent. -/
theorem C9_amended_surface :
    (∀ o ∈ globalRequestOps, o ∈ moduleRequestOps) ∧
    (∀ o ∈ globalRequestSpecOps, o.name = "setBody" ∨ o ∈ moduleRequestSpecOps) ∧
    (∀ o ∈ globalRequestSpecOps, ∃ o' ∈ moduleRequestSpecOps, o'.name = o.name) ∧
    (∀ o ∈ globalRequestsSDKOps, ∃ o' ∈ moduleRequestsSDKOps, o'.name = o.name) ∧
    (⟨"setBody", "(body: Body | Bytes): void"⟩ : Op) ∉ moduleRequestSpecOps ∧
    (⟨"send", "(request: RequestSpec): Promise<RequestReponse>"⟩ : Op) ∉ moduleRequestsSDKOps ∧
    ¬ InterfaceEquiv moduleRequestOps globalRequestOps ∧
    ¬ InterfaceEquiv moduleRequestsSDKOps globalRequestsSDKOps := by
  refine ⟨by decide, by decide, by decide, by decide, by decide, by decide,
    fun h => ?_, fun h => ?_⟩
  · exact absurd ((h ⟨"getHeaders", "(): Record<string, Array<string>>"⟩).mp (by decide))
      (by decide)
  · exact absurd ((h ⟨"inScope", "(request: Request | RequestSpec): boolean"⟩).mp (by decide))
      (by decide)

theorem C9_witness :
    (⟨"getHost", "(): string"⟩ : Op) ∈ moduleRequestOps ∧
    ((⟨"getHost", "(): string"⟩ : Op).name = "setBody" ∨
      (⟨"getHost", "(): string"⟩ : Op) ∈ moduleRequestSpecOps) :=
  ⟨C9_amended_surface.1 ⟨"getHost", "(): string"⟩ (by decide),
   C9_amended_surface.2.1 ⟨"getHost", "(): string"⟩ (by decide)⟩

/-- C10: a `RequestSpecRaw` can be constructed directly from a URL string; for
every parseable URL it derives host, port and tls exactly as
`RequestSpec(url)` does, and `getRaw()` on the fresh instance returns an empty
byte buffer. -/
theorem C10_rawSpec_fromUrl : ∀ (u : String) (r : RequestSpecRaw),
    RequestSpecRaw.ofUrl u = .ok r →
    ∃ s : RequestSpec, RequestSpec.ofUrl u = .ok s ∧
      r.getHost = s.getHost ∧ r.getPort = s.getPort ∧ r.getTls = s.getTls ∧
      r.getRaw = [] := by
  intro u r h
  unfold RequestSpecRaw.ofUrl at h
  cases hp : parseUrl u with
  | error e =>
    rw [hp] at h
    exact absurd h (by simp [Except.map])
  | ok p =>
    rw [hp] at h
    simp only [Except.map, Except.ok.injEq] at h
    subst h
    exact ⟨RequestSpec.ofParsed p, by unfold RequestSpec.ofUrl; rw [hp]; rfl,
      rfl, rfl, rfl, rfl⟩

theorem C10_witness :
    ∃ s : RequestSpec, RequestSpec.ofUrl "https://example.com/a?x=1" = .ok s ∧
      (⟨"example.com", 443, true, []⟩ : RequestSpecRaw).getHost = s.getHost ∧
      (⟨"example.com", 443, true, []⟩ : RequestSpecRaw).getPort = s.getPort ∧
      (⟨"example.com", 443, true, []⟩ : RequestSpecRaw).getTls = s.getTls ∧
      (⟨"example.com", 443, true, []⟩ : RequestSpecRaw).getRaw = [] :=
  C10_rawSpec_fromUrl "https://example.com/a?x=1" ⟨"example.com", 443, true, []⟩ rfl

end Caido
